import Mathlib

/-!
Verification of the leep_backend gateway core: the JWT validator and auth
middleware (internal/auth), the dual-credential Supabase forwarding client
(internal/supabase/client.go), the fixed-window rate limiter
(internal/middleware/ratelimit.go), the CORS and Logger middleware, and the
middleware pipeline wired in main.go.

Conventions of the embedding:
* Go byte slices are `List Nat` with every element < 256; `[]byte(s)` is the
  UTF-8 encoding of the string, modelled by `strBytes`.
* `base64.StdEncoding.DecodeString` / `EncodeToString` are modelled by
  `base64Decode` / `base64Encode` (standard alphabet, padding required,
  non-strict about trailing bits, as in Go's default StdEncoding).
* Time is a single abstract clock: `Nat` ticks for the rate limiter
  (`time.Now`, `time.Since`) and `Int` seconds for JWT temporal claims.
* The HMAC primitive of the jwt library is modelled symbolically: a
  signature records the algorithm, the key and the signed text
  (`hmacBytes`), which is the standard symbolic model of a MAC.  The JWT
  compact serialization is likewise modelled by a simple executable
  encoding (`signToken` / `parseToken`): algorithm name, claims and
  signature separated by dots.  All control flow of `ValidateToken`
  (secret presence check, base64-decode-then-fallback, keyfunc algorithm
  pinning, signature check, expiry and issued-at checks) is taken from the
  source.
-/

deriving instance DecidableEq for Except

set_option maxRecDepth 100000

namespace LeepBackend

/-! ## UTF-8 bytes of a string (Go `[]byte(s)`) -/

/-- UTF-8 encoding of a single character, as byte values. -/
def utf8EncodeCharNats (c : Char) : List Nat :=
  if c.toNat < 128 then [c.toNat]
  else if c.toNat < 2048 then [192 + c.toNat / 64, 128 + c.toNat % 64]
  else if c.toNat < 65536 then
    [224 + c.toNat / 4096, 128 + c.toNat / 64 % 64, 128 + c.toNat % 64]
  else
    [240 + c.toNat / 262144, 128 + c.toNat / 4096 % 64, 128 + c.toNat / 64 % 64,
      128 + c.toNat % 64]

/-- Go `[]byte(s)`: the UTF-8 bytes of a string. -/
def strBytes (s : String) : List Nat :=
  s.data.flatMap utf8EncodeCharNats

theorem utf8EncodeCharNats_ne_nil (c : Char) : utf8EncodeCharNats c ≠ [] := by
  unfold utf8EncodeCharNats
  split <;> try simp
  split <;> try simp
  split <;> simp

theorem char_toNat_lt (c : Char) : c.toNat < 1114112 := by
  have h := c.valid
  rcases h with h | h
  · exact Nat.lt_trans h (by norm_num)
  · exact h.2

theorem utf8EncodeCharNats_lt (c : Char) : ∀ b ∈ utf8EncodeCharNats c, b < 256 := by
  have hn := char_toNat_lt c
  unfold utf8EncodeCharNats
  intro b hb
  split at hb
  · simp at hb; omega
  · split at hb
    · simp at hb
      rcases hb with h | h <;> omega
    · split at hb
      · simp at hb
        rcases hb with h | h | h <;> omega
      · simp at hb
        rcases hb with h | h | h | h <;> omega

theorem strBytes_lt (s : String) : ∀ b ∈ strBytes s, b < 256 := by
  intro b hb
  simp only [strBytes, List.mem_flatMap] at hb
  obtain ⟨c, _, hc⟩ := hb
  exact utf8EncodeCharNats_lt c b hc

theorem strBytes_eq_nil_iff (s : String) : strBytes s = [] ↔ s = "" := by
  constructor
  · intro h
    cases s with
    | mk data =>
      cases data with
      | nil => rfl
      | cons c cs =>
        exfalso
        simp only [strBytes, List.flatMap_cons] at h
        exact utf8EncodeCharNats_ne_nil c (List.append_eq_nil.mp h).1
  · intro h; subst h; rfl

/-! ## Character-level string utilities (Go `strings.Split`, `strconv`) -/

def splitCharsAux (sep : Char) : List Char → List Char → List (List Char)
  | [], acc => [acc.reverse]
  | c :: rest, acc =>
    if c = sep then acc.reverse :: splitCharsAux sep rest []
    else splitCharsAux sep rest (c :: acc)

/-- Go `strings.Split(s, sep)` for a one-character separator. -/
def splitOnChar (sep : Char) (s : String) : List String :=
  (splitCharsAux sep s.data []).map (fun l => ⟨l⟩)

def decDigit (c : Char) : Option Nat :=
  if 48 ≤ c.toNat ∧ c.toNat ≤ 57 then some (c.toNat - 48) else none

def parseNatAux : List Char → Nat → Option Nat
  | [], acc => some acc
  | c :: rest, acc =>
    match decDigit c with
    | some d => parseNatAux rest (acc * 10 + d)
    | none => none

/-- Decimal parsing of a natural number. -/
def parseNat (s : String) : Option Nat :=
  match s.data with
  | [] => none
  | l => parseNatAux l 0

/-- Decimal parsing of an integer (optional leading minus). -/
def parseInt (s : String) : Option Int :=
  match s.data with
  | '-' :: rest =>
    if rest = [] then none else (parseNatAux rest 0).map (fun n => -(n : Int))
  | _ => (parseNat s).map (fun n => (n : Int))

def natToCharsAux : Nat → Nat → List Char
  | 0, n => [Char.ofNat (48 + n % 10)]
  | fuel + 1, n =>
    if n < 10 then [Char.ofNat (48 + n)]
    else natToCharsAux fuel (n / 10) ++ [Char.ofNat (48 + n % 10)]

def natToChars (n : Nat) : List Char := natToCharsAux n n

def natToString (n : Nat) : String := ⟨natToChars n⟩

def intToString (i : Int) : String :=
  if i < 0 then "-" ++ natToString i.natAbs else natToString i.toNat

def joinSep (sep : String) : List String → String
  | [] => ""
  | [x] => x
  | x :: rest => x ++ sep ++ joinSep sep rest

/-! ## Base64 (Go `encoding/base64` StdEncoding) -/

/-- The standard base64 alphabet. -/
def b64Chars : List Char :=
  "ABCDEFGHIJKLMNOPQRSTUVWXYZabcdefghijklmnopqrstuvwxyz0123456789+/".data

def b64IndexAux : List Char → Nat → Char → Option Nat
  | [], _, _ => none
  | a :: rest, i, c => if a = c then some i else b64IndexAux rest (i + 1) c

/-- Index of a character in the standard alphabet (`none` if absent). -/
def b64Index (c : Char) : Option Nat := b64IndexAux b64Chars 0 c

/-- Character for a 6-bit value. -/
def b64Char (n : Nat) : Char := b64Chars.getD n 'A'

theorem b64Index_b64Char : ∀ n < 64, b64Index (b64Char n) = some n := by
  decide

theorem b64Char_ne_pad : ∀ n < 64, b64Char n ≠ '=' := by
  decide

/-- Decode a full 4-character quantum into 3 bytes. -/
def decodeQuad (v1 v2 v3 v4 : Nat) : List Nat :=
  [v1 * 4 + v2 / 16, v2 % 16 * 16 + v3 / 4, v3 % 4 * 64 + v4]

/-- Base64 decoding over character lists: length must be a multiple of 4,
    padding only in the final quantum, as in Go's StdEncoding. -/
def base64DecodeChars : List Char → Option (List Nat)
  | [] => some []
  | c1 :: c2 :: c3 :: c4 :: rest =>
    match b64Index c1, b64Index c2 with
    | some v1, some v2 =>
      if rest.isEmpty then
        if c3 = '=' then
          if c4 = '=' then some [v1 * 4 + v2 / 16] else none
        else
          match b64Index c3 with
          | some v3 =>
            if c4 = '=' then some [v1 * 4 + v2 / 16, v2 % 16 * 16 + v3 / 4]
            else
              match b64Index c4 with
              | some v4 => some (decodeQuad v1 v2 v3 v4)
              | none => none
          | none => none
      else
        match b64Index c3, b64Index c4 with
        | some v3, some v4 =>
          match base64DecodeChars rest with
          | some bs => some (decodeQuad v1 v2 v3 v4 ++ bs)
          | none => none
        | _, _ => none
    | _, _ => none
  | _ => none

/-- Go `base64.StdEncoding.DecodeString` (error modelled as `none`). -/
def base64Decode (s : String) : Option (List Nat) :=
  base64DecodeChars s.data

/-- Base64 encoding of a byte list. -/
def base64EncodeBytes : List Nat → List Char
  | [] => []
  | [b1] => [b64Char (b1 / 4), b64Char (b1 % 4 * 16), '=', '=']
  | [b1, b2] => [b64Char (b1 / 4), b64Char (b1 % 4 * 16 + b2 / 16), b64Char (b2 % 16 * 4), '=']
  | b1 :: b2 :: b3 :: rest =>
    b64Char (b1 / 4) :: b64Char (b1 % 4 * 16 + b2 / 16) ::
      b64Char (b2 % 16 * 4 + b3 / 64) :: b64Char (b3 % 64) :: base64EncodeBytes rest

/-- Go `base64.StdEncoding.EncodeToString`. -/
def base64Encode (bs : List Nat) : String :=
  ⟨base64EncodeBytes bs⟩

theorem base64EncodeBytes_eq_nil_iff (bs : List Nat) :
    base64EncodeBytes bs = [] ↔ bs = [] := by
  cases bs with
  | nil => simp [base64EncodeBytes]
  | cons b1 t1 =>
    cases t1 with
    | nil => simp [base64EncodeBytes]
    | cons b2 t2 =>
      cases t2 with
      | nil => simp [base64EncodeBytes]
      | cons b3 rest => simp [base64EncodeBytes]

theorem base64DecodeChars_encode (bs : List Nat) (h : ∀ b ∈ bs, b < 256) :
    base64DecodeChars (base64EncodeBytes bs) = some bs := by
  induction bs using base64EncodeBytes.induct with
  | case1 => rfl
  | case2 b1 =>
    have h1 : b1 < 256 := h b1 (by simp)
    simp only [base64EncodeBytes, base64DecodeChars,
      b64Index_b64Char (b1 / 4) (by omega),
      b64Index_b64Char (b1 % 4 * 16) (by omega),
      List.isEmpty_nil, if_true, if_pos rfl, Option.some.injEq, List.cons.injEq,
      and_true]
    omega
  | case3 b1 b2 =>
    have h1 : b1 < 256 := h b1 (by simp)
    have h2 : b2 < 256 := h b2 (by simp)
    simp only [base64EncodeBytes, base64DecodeChars,
      b64Index_b64Char (b1 / 4) (by omega),
      b64Index_b64Char (b1 % 4 * 16 + b2 / 16) (by omega),
      b64Index_b64Char (b2 % 16 * 4) (by omega),
      List.isEmpty_nil, if_true, if_neg (b64Char_ne_pad (b2 % 16 * 4) (by omega)),
      if_pos rfl, Option.some.injEq, List.cons.injEq, and_true]
    constructor <;> omega
  | case4 b1 b2 b3 rest ih =>
    have h1 : b1 < 256 := h b1 (by simp)
    have h2 : b2 < 256 := h b2 (by simp)
    have h3 : b3 < 256 := h b3 (by simp)
    have hrest : ∀ b ∈ rest, b < 256 := fun b hb => h b (by simp [hb])
    have ih2 := ih hrest
    cases hr : rest with
    | nil =>
      subst hr
      simp only [base64EncodeBytes, base64DecodeChars,
        b64Index_b64Char (b1 / 4) (by omega),
        b64Index_b64Char (b1 % 4 * 16 + b2 / 16) (by omega),
        b64Index_b64Char (b2 % 16 * 4 + b3 / 64) (by omega),
        b64Index_b64Char (b3 % 64) (by omega),
        List.isEmpty_nil, if_true,
        if_neg (b64Char_ne_pad (b2 % 16 * 4 + b3 / 64) (by omega)),
        if_neg (b64Char_ne_pad (b3 % 64) (by omega)),
        decodeQuad, Option.some.injEq, List.cons.injEq, and_true]
      refine ⟨by omega, by omega, by omega⟩
    | cons r rs =>
      subst hr
      have hne : base64EncodeBytes (r :: rs) ≠ [] := by
        simp [base64EncodeBytes_eq_nil_iff]
      simp only [base64EncodeBytes, base64DecodeChars,
        b64Index_b64Char (b1 / 4) (by omega),
        b64Index_b64Char (b1 % 4 * 16 + b2 / 16) (by omega),
        b64Index_b64Char (b2 % 16 * 4 + b3 / 64) (by omega),
        b64Index_b64Char (b3 % 64) (by omega),
        List.isEmpty_eq_true, hne, if_false, ih2, decodeQuad,
        Option.some.injEq]
      have e1 : b1 / 4 * 4 + (b1 % 4 * 16 + b2 / 16) / 16 = b1 := by omega
      have e2 : (b1 % 4 * 16 + b2 / 16) % 16 * 16 + (b2 % 16 * 4 + b3 / 64) / 4 = b2 := by
        omega
      have e3 : (b2 % 16 * 4 + b3 / 64) % 4 * 64 + b3 % 64 = b3 := by omega
      rw [e1, e2, e3]
      rfl

/-- Round trip: Go's DecodeString inverts EncodeToString on byte data. -/
theorem base64Decode_encode (bs : List Nat) (h : ∀ b ∈ bs, b < 256) :
    base64Decode (base64Encode bs) = some bs :=
  base64DecodeChars_encode bs h

/-! ## JWT tokens (internal/auth, golang-jwt/jwt/v5 modelled symbolically) -/

/-- JWT signing algorithms that can appear in a token header. -/
inductive Alg where
  | HS256 | HS384 | HS512 | RS256 | RS384 | ES256 | ES384 | PS256 | algNone
deriving DecidableEq

/-- The HMAC family check performed by the keyfunc in `ValidateToken`
    (`token.Method.(*jwt.SigningMethodHMAC)`). -/
def isHMAC : Alg → Bool
  | .HS256 | .HS384 | .HS512 => true
  | _ => false

/-- Header name of an algorithm. -/
def algName : Alg → String
  | .HS256 => "HS256"
  | .HS384 => "HS384"
  | .HS512 => "HS512"
  | .RS256 => "RS256"
  | .RS384 => "RS384"
  | .ES256 => "ES256"
  | .ES384 => "ES384"
  | .PS256 => "PS256"
  | .algNone => "none"

def algOfName (s : String) : Option Alg :=
  if s = "HS256" then some .HS256
  else if s = "HS384" then some .HS384
  else if s = "HS512" then some .HS512
  else if s = "RS256" then some .RS256
  else if s = "RS384" then some .RS384
  else if s = "ES256" then some .ES256
  else if s = "ES384" then some .ES384
  else if s = "PS256" then some .PS256
  else if s = "none" then some .algNone
  else none

/-- The claims structure of internal/auth: `Sub`, `Email`, `Role` plus the
    registered temporal claims used by the jwt validator (`exp`, `iat`),
    as Unix seconds. -/
structure UserClaims where
  sub : String
  email : String
  role : String
  exp : Option Int
  iat : Option Int
deriving DecidableEq

def encOptInt : Option Int → String
  | none => ""
  | some i => intToString i

def parseOptInt (s : String) : Option (Option Int) :=
  if s = "" then some none else (parseInt s).map some

/-- Payload serialization of the symbolic compact form. -/
def encClaims (cl : UserClaims) : String :=
  cl.sub ++ "|" ++ cl.email ++ "|" ++ cl.role ++ "|" ++ encOptInt cl.exp ++ "|"
    ++ encOptInt cl.iat

def parseClaims (s : String) : Option UserClaims :=
  match splitOnChar '|' s with
  | [su, em, ro, ex, ia] =>
    match parseOptInt ex, parseOptInt ia with
    | some e, some i => some ⟨su, em, ro, e, i⟩
    | _, _ => none
  | _ => none

def algCode : Alg → Nat
  | .HS256 => 0
  | .HS384 => 1
  | .HS512 => 2
  | .RS256 => 3
  | .RS384 => 4
  | .ES256 => 5
  | .ES384 => 6
  | .PS256 => 7
  | .algNone => 8

/-- Symbolic MAC: the tag determines the algorithm, the key and the signed
    text.  Stands in for the HMAC-SHA computation of the jwt library. -/
def hmacBytes (alg : Alg) (key : List Nat) (msg : String) : List Nat :=
  algCode alg :: key.length :: (key ++ strBytes msg)

/-- The signed portion of a compact token: header part and payload part. -/
def signingInput (alg : Alg) (cl : UserClaims) : String :=
  algName alg ++ "." ++ encClaims cl

def encSig (sg : List Nat) : String :=
  joinSep "-" (sg.map natToString)

def parseSig (s : String) : Option (List Nat) :=
  if s = "" then some [] else (splitOnChar '-' s).mapM parseNat

/-- A decoded compact token: header algorithm, claims and signature. -/
structure ParsedToken where
  alg : Alg
  claims : UserClaims
  sig : List Nat
deriving DecidableEq

/-- Decoding of the symbolic compact serialization (the structural parsing
    step of `jwt.ParseWithClaims`). -/
def parseToken (s : String) : Option ParsedToken :=
  match splitOnChar '.' s with
  | [h, p, g] =>
    match algOfName h, parseClaims p, parseSig g with
    | some a, some cl, some sg => some ⟨a, cl, sg⟩
    | _, _, _ => none
  | _ => none

/-- Produce a compact token signed with `key` (the identity provider's
    side; used to build concrete witnesses). -/
def signToken (alg : Alg) (key : List Nat) (cl : UserClaims) : String :=
  signingInput alg cl ++ "." ++ encSig (hmacBytes alg key (signingInput alg cl))

/-- Key-material selection of `ValidateToken`: try base64 first, fall back
    to the raw bytes when decoding fails. -/
def effectiveSecretKey (jwtSecret : String) : List Nat :=
  match base64Decode jwtSecret with
  | some bs => bs
  | none => strBytes jwtSecret

/-- Validation given resolved key material: structural parse, keyfunc
    algorithm pinning, signature verification, then temporal claims
    (`exp` strictly in the future, `iat` not in the future), mirroring
    `jwt.ParseWithClaims` with the keyfunc of `ValidateToken`. -/
def checkTemporalClaims (cl : UserClaims) (now : Int) : Except String UserClaims :=
  match cl.exp with
  | some e =>
    if e ≤ now then .error "failed to parse token: token has invalid claims: token is expired"
    else
      match cl.iat with
      | some i =>
        if now < i then
          .error "failed to parse token: token has invalid claims: token used before issued"
        else .ok cl
      | none => .ok cl
  | none =>
    match cl.iat with
    | some i =>
      if now < i then
        .error "failed to parse token: token has invalid claims: token used before issued"
      else .ok cl
    | none => .ok cl

def validateTokenWithKey (secretKey : List Nat) (now : Int) (tokenString : String) :
    Except String UserClaims :=
  match parseToken tokenString with
  | none => .error "failed to parse token: token is malformed"
  | some tok =>
    if isHMAC tok.alg = false then
      .error ("failed to parse token: token is unverifiable: unexpected signing method: "
        ++ algName tok.alg)
    else if tok.sig ≠ hmacBytes tok.alg secretKey (signingInput tok.alg tok.claims) then
      .error "failed to parse token: token signature is invalid"
    else
      checkTemporalClaims tok.claims now

/-- Model of `ValidateToken` of internal/auth: requires a configured secret, resolves
    key material (base64 with raw fallback), then validates the token. -/
def validateToken (jwtSecret : String) (now : Int) (tokenString : String) :
    Except String UserClaims :=
  if jwtSecret = "" then .error "SUPABASE_JWT_SECRET not configured"
  else validateTokenWithKey (effectiveSecretKey jwtSecret) now tokenString

/-! ## Identity context and auth middleware (internal/auth) -/

/-- The request-scoped values stored under `UserIDKey`, `UserEmail` and
    `UserToken` by the middleware (`c.Set`); `none` means the key was never
    set on this request. -/
structure AuthContext where
  user_id : Option String
  user_email : Option String
  user_token : Option String
deriving DecidableEq

def emptyContext : AuthContext := ⟨none, none, none⟩

/-- Outcome of an interceptor: either the request is short-circuited with a
    status and the `error` field of the JSON body (`c.Abort`), or it
    continues to the handler with the context as populated. -/
inductive AuthOutcome where
  | rejected (status : Nat) (errorBody : String)
  | proceed (ctx : AuthContext)
deriving DecidableEq

/-- Model of `RequireAuth` of internal/auth: missing header, malformed header and
    invalid token abort with 401; a valid token populates the context.
    `authHeader` is the raw `Authorization` header (`""` when absent, as
    returned by `c.GetHeader`). -/
def requireAuth (jwtSecret : String) (now : Int) (authHeader : String) : AuthOutcome :=
  if authHeader = "" then .rejected 401 "missing authorization header"
  else
    match splitOnChar ' ' authHeader with
    | [p0, p1] =>
      if p0 = "Bearer" then
        match validateToken jwtSecret now p1 with
        | .error e => .rejected 401 ("invalid token: " ++ e)
        | .ok claims => .proceed ⟨some claims.sub, some claims.email, some p1⟩
      else .rejected 401 "invalid authorization header format"
    | _ => .rejected 401 "invalid authorization header format"

/-- Model of `OptionalAuth` of internal/auth: always continues; the context is
    populated exactly when a well-formed `Bearer` header carries a token
    that validates. -/
def optionalAuth (jwtSecret : String) (now : Int) (authHeader : String) : AuthContext :=
  if authHeader = "" then emptyContext
  else
    match splitOnChar ' ' authHeader with
    | [p0, p1] =>
      if p0 = "Bearer" then
        match validateToken jwtSecret now p1 with
        | .error _ => emptyContext
        | .ok claims => ⟨some claims.sub, some claims.email, some p1⟩
      else emptyContext
    | _ => emptyContext

/-- Model of `GetUserID`: read the subject from the context, error when unset. -/
def getUserID (ctx : AuthContext) : Except String String :=
  match ctx.user_id with
  | some v => .ok v
  | none => .error "user not authenticated"

/-- Model of `GetUserToken`: read the raw token from the context, error when unset. -/
def getUserToken (ctx : AuthContext) : Except String String :=
  match ctx.user_token with
  | some v => .ok v
  | none => .error "user token not found"

/-- Model of `MustGetUserID`: `none` models the panic branch. -/
def mustGetUserID (ctx : AuthContext) : Option String :=
  match getUserID ctx with
  | .ok v => some v
  | .error _ => none

/-! ## Supabase forwarding client (internal/supabase/client.go) -/

/-- The credential triple held by `supabase.Client`. -/
structure Client where
  baseURL : String
  anonKey : String
  serviceRoleKey : String

/-- The parts of the outbound `http.Request` that `Client.Request` sets:
    method, full URL, the three headers and the JSON body.
    `authorization` is the `Authorization` header (`none` when unset). -/
structure OutboundRequest where
  method : String
  url : String
  contentType : String
  apikey : String
  authorization : Option String
  body : Option String
deriving DecidableEq

/-- Go `fmt.Sprintf("Bearer %s", cred)`. -/
def bearerHeader (credential : String) : String := "Bearer " ++ credential

/-- Model of `Client.Request`: the core forwarding method.  The privileged flag
    selects the service-role key as bearer; otherwise a non-empty user
    token is forwarded verbatim; otherwise no Authorization header. -/
def Client.request (c : Client) (method path : String) (body : Option String)
    (token : String) (useServiceRole : Bool) : OutboundRequest :=
  { method := method
    url := c.baseURL ++ path
    contentType := "application/json"
    apikey := c.anonKey
    authorization :=
      if useServiceRole then some (bearerHeader c.serviceRoleKey)
      else if token ≠ "" then some (bearerHeader token)
      else none
    body := body }

/-- Model of `Client.Get` (user-scoped). -/
def Client.get (c : Client) (path token : String) : OutboundRequest :=
  c.request "GET" path none token false

/-- Model of `Client.Post` (user-scoped). -/
def Client.post (c : Client) (path : String) (body : Option String) (token : String) :
    OutboundRequest :=
  c.request "POST" path body token false

/-- Model of `Client.Patch` (user-scoped). -/
def Client.patch (c : Client) (path : String) (body : Option String) (token : String) :
    OutboundRequest :=
  c.request "PATCH" path body token false

/-- Model of `Client.Delete` (user-scoped). -/
def Client.delete (c : Client) (path token : String) : OutboundRequest :=
  c.request "DELETE" path none token false

/-- Model of `Client.ServiceRolePost` (privileged). -/
def Client.serviceRolePost (c : Client) (path : String) (body : Option String) :
    OutboundRequest :=
  c.request "POST" path body "" true

/-- Model of `Client.ServiceRolePatch` (privileged). -/
def Client.serviceRolePatch (c : Client) (path : String) (body : Option String) :
    OutboundRequest :=
  c.request "PATCH" path body "" true

/-- Model of `Client.ServiceRoleDelete` (privileged). -/
def Client.serviceRoleDelete (c : Client) (path : String) : OutboundRequest :=
  c.request "DELETE" path none "" true

/-! ## Rate limiter (internal/middleware/ratelimit.go) -/

/-- Struct `clientInfo`: request count and window start for one client. -/
structure clientInfo where
  count : Nat
  lastReset : Nat
deriving DecidableEq

/-- Outcome of one admission decision.  `rejected retryAfter` is the 429
    response with its `retry_after` value. -/
inductive Decision where
  | admitted
  | rejected (retryAfter : Nat)
deriving DecidableEq

/-- The `clients` map of the limiter (Go map, `nil`-free). -/
def LimiterState : Type := String → Option clientInfo

def emptyLimiter : LimiterState := fun _ => none

/-- Map write `limiter.clients[ip] = info` (also covers the in-place
    mutation of an existing entry through its pointer). -/
def setClient (st : LimiterState) (ip : String) (info : clientInfo) : LimiterState :=
  fun k => if k = ip then some info else st k

/-- One admission decision of the `RateLimit` middleware, executed under the
    limiter mutex: create-on-first-request, reset after the window has
    elapsed, increment within the window below the limit, reject at the
    limit with `retry_after = window - time.Since(lastReset)`. -/
def rateLimitStep (maxRequests window now : Nat) (ip : String) (st : LimiterState) :
    Decision × LimiterState :=
  match st ip with
  | none => (.admitted, setClient st ip ⟨1, now⟩)
  | some info =>
    if now - info.lastReset > window then
      (.admitted, setClient st ip ⟨1, now⟩)
    else if info.count ≥ maxRequests then
      (.rejected (window - (now - info.lastReset)), st)
    else
      (.admitted, setClient st ip ⟨info.count + 1, info.lastReset⟩)

/-- Sequential admission of requests from a single client at the given
    times. -/
def rateLimitRun (maxRequests window : Nat) (ip : String) (ts : List Nat)
    (st : LimiterState) : List Decision × LimiterState :=
  match ts with
  | [] => ([], st)
  | t :: rest =>
    let step := rateLimitStep maxRequests window t ip st
    let restRun := rateLimitRun maxRequests window ip rest step.2
    (step.1 :: restRun.1, restRun.2)

/-- Sequential admission of an interleaved request stream from many
    clients; decisions are tagged with the client that made them. -/
def rateLimitRunMulti (maxRequests window : Nat) (reqs : List (String × Nat))
    (st : LimiterState) : List (String × Decision) × LimiterState :=
  match reqs with
  | [] => ([], st)
  | (ip, t) :: rest =>
    let step := rateLimitStep maxRequests window t ip st
    let restRun := rateLimitRunMulti maxRequests window rest step.2
    ((ip, step.1) :: restRun.1, restRun.2)

/-- Decisions of one client within an interleaved stream. -/
def decisionsFor (a : String) (ds : List (String × Decision)) : List Decision :=
  ds.filterMap (fun p => if p.1 = a then some p.2 else none)

/-- Request times of one client within an interleaved stream. -/
def requestTimesFor (a : String) (reqs : List (String × Nat)) : List Nat :=
  reqs.filterMap (fun p => if p.1 = a then some p.2 else none)

def isRejected : Decision → Bool
  | .admitted => false
  | .rejected _ => true

def countAdmitted (ds : List Decision) : Nat :=
  (ds.filter (fun d => d = Decision.admitted)).length

def countRejected (ds : List Decision) : Nat :=
  (ds.filter isRejected).length

/-! ## Middleware pipeline (main.go: Recovery, CORS, Logger, RateLimit,
    per-route auth, handler) -/

/-- An inbound request as seen by the middleware chain.  `time` is the
    single clock tick at which the request is handled (used both by the
    rate limiter and as the JWT validation time). -/
structure GatewayRequest where
  method : String
  path : String
  authHeader : String
  clientIP : String
  time : Nat

/-- The structured log line of the Logger middleware: method, path, final
    status, and the `user=` field (`""` when the Logger saw no user id;
    timestamp and latency are wall-clock side effects outside the model). -/
structure LogRecord where
  method : String
  path : String
  status : Nat
  user : String
deriving DecidableEq

/-- Per-route auth configuration in main.go: `RequireAuth()`,
    `OptionalAuth()` or no auth middleware. -/
inductive RouteAuth where
  | required
  | optional
  | publicRoute
deriving DecidableEq

/-- What a request produced: final status, the emitted log line (`none`
    when the Logger never ran), whether the route handler executed, the
    identity context the handler observed, and the limiter map afterwards. -/
structure PipelineResult where
  status : Nat
  logLine : Option LogRecord
  handlerRan : Bool
  ctx : AuthContext
  limiter : LimiterState

/-- Status a handler responds with once it runs (handler bodies are outside
    the specified core). -/
def handlerStatus : Nat := 200

/-- What the Logger middleware captures at its entry: `GetUserID` read from
    the request context as it exists before `c.Next()` runs the rest of the
    chain (empty at that point: only Recovery and CORS precede the Logger;
    a failed read leaves the Go zero value `""`). -/
def loggerCapturedUser : String :=
  match getUserID emptyContext with
  | .ok v => v
  | .error _ => ""

/-- The middleware chain of main.go in registration order.  CORS answers
    OPTIONS preflights with 204 and aborts before Logger and RateLimit run.
    The Logger captures the user id at its entry — before `c.Next()`
    invokes the rate limiter, the auth middleware and the handler — and
    emits that captured value after the chain returns. -/
def processRequest (jwtSecret : String) (maxRequests window : Nat) (route : RouteAuth)
    (req : GatewayRequest) (st : LimiterState) : PipelineResult :=
  if req.method = "OPTIONS" then
    { status := 204, logLine := none, handlerRan := false, ctx := emptyContext,
      limiter := st }
  else
    match rateLimitStep maxRequests window req.time req.clientIP st with
    | (.rejected _, st2) =>
      { status := 429
        logLine := some ⟨req.method, req.path, 429, loggerCapturedUser⟩
        handlerRan := false, ctx := emptyContext, limiter := st2 }
    | (.admitted, st2) =>
      match route with
      | .publicRoute =>
        { status := handlerStatus
          logLine := some ⟨req.method, req.path, handlerStatus, loggerCapturedUser⟩
          handlerRan := true, ctx := emptyContext, limiter := st2 }
      | .optional =>
        { status := handlerStatus
          logLine := some ⟨req.method, req.path, handlerStatus, loggerCapturedUser⟩
          handlerRan := true
          ctx := optionalAuth jwtSecret req.time req.authHeader
          limiter := st2 }
      | .required =>
        match requireAuth jwtSecret req.time req.authHeader with
        | .rejected s _ =>
          { status := s
            logLine := some ⟨req.method, req.path, s, loggerCapturedUser⟩
            handlerRan := false, ctx := emptyContext, limiter := st2 }
        | .proceed ctx =>
          { status := handlerStatus
            logLine := some ⟨req.method, req.path, handlerStatus, loggerCapturedUser⟩
            handlerRan := true, ctx := ctx, limiter := st2 }

/-! ## Helper lemmas -/

theorem string_data_append (s t : String) : (s ++ t).data = s.data ++ t.data := by
  cases s; cases t; rfl

theorem string_eq_of_data_eq {s t : String} (h : s.data = t.data) : s = t := by
  cases s; cases t; exact congrArg String.mk h

theorem bearerHeader_injective {x y : String} (h : bearerHeader x = bearerHeader y) :
    x = y := by
  have hd := congrArg String.data h
  simp only [bearerHeader, string_data_append] at hd
  exact string_eq_of_data_eq (List.append_cancel_left hd)

theorem countAdmitted_nil : countAdmitted [] = 0 := rfl

theorem countRejected_nil : countRejected [] = 0 := rfl

theorem countAdmitted_cons_admitted (ds : List Decision) :
    countAdmitted (.admitted :: ds) = countAdmitted ds + 1 := by
  simp [countAdmitted]

theorem countAdmitted_cons_rejected (ra : Nat) (ds : List Decision) :
    countAdmitted (.rejected ra :: ds) = countAdmitted ds := by
  simp [countAdmitted]

theorem countRejected_cons_admitted (ds : List Decision) :
    countRejected (.admitted :: ds) = countRejected ds := by
  simp [countRejected, isRejected]

theorem countRejected_cons_rejected (ra : Nat) (ds : List Decision) :
    countRejected (.rejected ra :: ds) = countRejected ds + 1 := by
  simp [countRejected, isRejected]

/-- Behaviour of a run of single-client requests all falling inside the
    window opened at `t0`, starting from an entry `⟨c, t0⟩`. -/
theorem rateLimitRun_within_window (maxRequests window : Nat) (ip : String) (t0 : Nat)
    (ts : List Nat) :
    ∀ (st : LimiterState) (c : Nat), st ip = some ⟨c, t0⟩ → 1 ≤ c → c ≤ maxRequests →
    (∀ t ∈ ts, t0 ≤ t ∧ t - t0 < window) →
    countAdmitted (rateLimitRun maxRequests window ip ts st).1
        = min ts.length (maxRequests - c)
    ∧ countRejected (rateLimitRun maxRequests window ip ts st).1
        = ts.length - (maxRequests - c)
    ∧ (∀ ra, Decision.rejected ra ∈ (rateLimitRun maxRequests window ip ts st).1 →
        0 < ra)
    ∧ (rateLimitRun maxRequests window ip ts st).2 ip
        = some ⟨min (c + ts.length) maxRequests, t0⟩ := by
  induction ts with
  | nil =>
    intro st c hst hc1 hcm hts
    refine ⟨?_, ?_, ?_, ?_⟩
    · simp [rateLimitRun, countAdmitted_nil]
    · simp [rateLimitRun, countRejected_nil]
    · intro ra hra
      simp [rateLimitRun] at hra
    · show st ip = some ⟨min (c + List.length []) maxRequests, t0⟩
      rw [hst, List.length_nil, Nat.add_zero, Nat.min_eq_left hcm]
  | cons t rest ih =>
    intro st c hst hc1 hcm hts
    have ht := hts t (by simp)
    have hrest : ∀ u ∈ rest, t0 ≤ u ∧ u - t0 < window := fun u hu => hts u (by simp [hu])
    by_cases hfull : c ≥ maxRequests
    · have hceq : c = maxRequests := le_antisymm hcm hfull
      have hstep : rateLimitStep maxRequests window t ip st
          = (.rejected (window - (t - t0)), st) := by
        simp only [rateLimitStep, hst]
        rw [if_neg (by omega : ¬ t - t0 > window), if_pos (by omega : c ≥ maxRequests)]
      have hr := ih st c hst hc1 hcm hrest
      simp only [rateLimitRun, hstep]
      refine ⟨?_, ?_, ?_, ?_⟩
      · rw [countAdmitted_cons_rejected, hr.1, List.length_cons]
        omega
      · rw [countRejected_cons_rejected, hr.2.1, List.length_cons]
        omega
      · intro ra hra
        rcases List.mem_cons.mp hra with heq | hmem
        · cases Decision.rejected.inj heq
          omega
        · exact hr.2.2.1 ra hmem
      · rw [hr.2.2.2, List.length_cons]
        congr 2
        omega
    · have hclt : c < maxRequests := lt_of_not_ge hfull
      have hstep : rateLimitStep maxRequests window t ip st
          = (.admitted, setClient st ip ⟨c + 1, t0⟩) := by
        simp only [rateLimitStep, hst]
        rw [if_neg (by omega : ¬ t - t0 > window), if_neg (by omega : ¬ c ≥ maxRequests)]
      have hst2 : setClient st ip ⟨c + 1, t0⟩ ip = some ⟨c + 1, t0⟩ := by
        simp [setClient]
      have hr := ih (setClient st ip ⟨c + 1, t0⟩) (c + 1) hst2 (by omega) (by omega) hrest
      simp only [rateLimitRun, hstep]
      refine ⟨?_, ?_, ?_, ?_⟩
      · rw [countAdmitted_cons_admitted, hr.1, List.length_cons]
        omega
      · rw [countRejected_cons_admitted, hr.2.1, List.length_cons]
        omega
      · intro ra hra
        rcases List.mem_cons.mp hra with heq | hmem
        · exact absurd heq (by simp)
        · exact hr.2.2.1 ra hmem
      · rw [hr.2.2.2, List.length_cons]
        congr 2
        omega

/-! ## Claim theorems -/

/-- C1: a forwarding call built with the privileged (service-role) flag set
    always carries the service-role key as its bearer credential and never
    the caller's user token (even when a non-empty user token is passed),
    and the user-scoped entry points Get, Post, Patch and Delete never
    carry the service-role key as the bearer credential (given that the
    passed user token is not itself the service-role key). -/
theorem C1_privileged_isolation (c : Client) (method path : String)
    (body : Option String) (token : String) (hne : token ≠ c.serviceRoleKey) :
    ((c.request method path body token true).authorization
        = some (bearerHeader c.serviceRoleKey)
      ∧ (c.request method path body token true).authorization
        ≠ some (bearerHeader token))
    ∧ ((c.get path token).authorization ≠ some (bearerHeader c.serviceRoleKey)
      ∧ (c.post path body token).authorization ≠ some (bearerHeader c.serviceRoleKey)
      ∧ (c.patch path body token).authorization ≠ some (bearerHeader c.serviceRoleKey)
      ∧ (c.delete path token).authorization ≠ some (bearerHeader c.serviceRoleKey)) := by
  have hpriv : ∀ m (b : Option String),
      (c.request m path b token true).authorization
        = some (bearerHeader c.serviceRoleKey) := by
    intro m b
    simp [Client.request]
  have hprivne : ∀ m (b : Option String),
      (c.request m path b token true).authorization ≠ some (bearerHeader token) := by
    intro m b h
    rw [hpriv m b] at h
    exact hne (bearerHeader_injective (Option.some.inj h).symm)
  have huser : ∀ m (b : Option String),
      (c.request m path b token false).authorization
        ≠ some (bearerHeader c.serviceRoleKey) := by
    intro m b h
    simp only [Client.request, if_false, Bool.false_eq_true] at h
    by_cases ht : token = ""
    · rw [if_neg (by simp [ht])] at h
      exact Option.noConfusion h
    · rw [if_pos ht] at h
      exact hne (bearerHeader_injective (Option.some.inj h))
  exact ⟨⟨hpriv method body, hprivne method body⟩,
    huser "GET" none, huser "POST" body, huser "PATCH" body, huser "DELETE" none⟩

/-- Witness for C1 at a concrete client, path and token. -/
theorem C1_privileged_isolation_witness :
    ("tok" ≠ (Client.mk "https://x" "anon" "srk").serviceRoleKey)
    ∧ (((Client.mk "https://x" "anon" "srk").request "GET" "/rest/v1/songs" none "tok"
          true).authorization = some (bearerHeader "srk")
      ∧ ((Client.mk "https://x" "anon" "srk").request "GET" "/rest/v1/songs" none "tok"
          true).authorization ≠ some (bearerHeader "tok"))
    ∧ (((Client.mk "https://x" "anon" "srk").get "/rest/v1/songs" "tok").authorization
        ≠ some (bearerHeader "srk")
      ∧ ((Client.mk "https://x" "anon" "srk").post "/rest/v1/songs" none "tok").authorization
        ≠ some (bearerHeader "srk")
      ∧ ((Client.mk "https://x" "anon" "srk").patch "/rest/v1/songs" none "tok").authorization
        ≠ some (bearerHeader "srk")
      ∧ ((Client.mk "https://x" "anon" "srk").delete "/rest/v1/songs" "tok").authorization
        ≠ some (bearerHeader "srk")) := by
  have h := C1_privileged_isolation (Client.mk "https://x" "anon" "srk") "GET"
    "/rest/v1/songs" none "tok" (by decide)
  exact ⟨by decide, h.1, h.2⟩

/-- C3: any token whose header declares a non-HMAC algorithm is rejected by
    `ValidateToken` no matter the secret, the time or the claims; only
    tokens whose header is in the HMAC family can validate successfully. -/
theorem C3_algorithm_pinning :
    (∀ (jwtSecret : String) (now : Int) (s : String) (tok : ParsedToken),
      parseToken s = some tok → isHMAC tok.alg = false →
      ∃ e, validateToken jwtSecret now s = .error e)
    ∧ (∀ (jwtSecret : String) (now : Int) (s : String) (cl : UserClaims),
      validateToken jwtSecret now s = .ok cl →
      ∃ tok, parseToken s = some tok ∧ isHMAC tok.alg = true) := by
  constructor
  · intro jwtSecret now s tok hp hh
    unfold validateToken
    split
    · exact ⟨_, rfl⟩
    · refine ⟨"failed to parse token: token is unverifiable: unexpected signing method: "
        ++ algName tok.alg, ?_⟩
      unfold validateTokenWithKey
      rw [hp]
      simp [hh]
  · intro jwtSecret now s cl h
    by_cases hs : jwtSecret = ""
    · simp [validateToken, hs] at h
    · simp only [validateToken, if_neg hs, validateTokenWithKey] at h
      cases hp : parseToken s with
      | none => rw [hp] at h; exact absurd h (by simp)
      | some tok =>
        rw [hp] at h
        refine ⟨tok, rfl, ?_⟩
        by_cases hh : isHMAC tok.alg = false
        · simp [hh] at h
        · simpa using hh

def c3Claims : UserClaims := ⟨"u1", "e", "authenticated", some 1000, some 0⟩

def c3TokenString : String := signToken .RS256 (strBytes "secret!") c3Claims

def c3Parsed : ParsedToken :=
  ⟨.RS256, c3Claims, hmacBytes .RS256 (strBytes "secret!") (signingInput .RS256 c3Claims)⟩

/-- Witness for C3 at a concrete RS256 token with a valid-looking
    signature. -/
theorem C3_algorithm_pinning_witness :
    parseToken c3TokenString = some c3Parsed
    ∧ isHMAC c3Parsed.alg = false
    ∧ ∃ e, validateToken "secret!" 0 c3TokenString = .error e :=
  ⟨by decide, by decide,
    C3_algorithm_pinning.1 "secret!" 0 c3TokenString c3Parsed (by decide) (by decide)⟩

/-- C4: for every Authorization header value, the required and optional
    middlewares agree on validity: whenever `RequireAuth` rejects (missing
    header, malformed header, or invalid token), `OptionalAuth` admits the
    same request with an entirely empty identity context; and whenever
    `RequireAuth` admits with a populated context, `OptionalAuth` produces
    the identical subject, email and raw-token values. -/
theorem C4_required_optional_agree (jwtSecret : String) (now : Int)
    (authHeader : String) :
    (∀ status body, requireAuth jwtSecret now authHeader = .rejected status body →
      optionalAuth jwtSecret now authHeader = emptyContext)
    ∧ (∀ ctx, requireAuth jwtSecret now authHeader = .proceed ctx →
      optionalAuth jwtSecret now authHeader = ctx) := by
  by_cases h0 : authHeader = ""
  · constructor
    · intro status body _
      simp [optionalAuth, h0]
    · intro ctx hr
      rw [requireAuth, if_pos h0] at hr
      exact absurd hr (by simp)
  · cases hsp : splitOnChar ' ' authHeader with
    | nil =>
      constructor
      · intro status body _
        simp [optionalAuth, h0, hsp]
      · intro ctx hr
        rw [requireAuth, if_neg h0, hsp] at hr
        exact absurd hr (by simp)
    | cons p0 rest =>
      cases rest with
      | nil =>
        constructor
        · intro status body _
          simp [optionalAuth, h0, hsp]
        · intro ctx hr
          rw [requireAuth, if_neg h0, hsp] at hr
          exact absurd hr (by simp)
      | cons p1 rest2 =>
        cases rest2 with
        | nil =>
          by_cases hb : p0 = "Bearer"
          · cases hv : validateToken jwtSecret now p1 with
            | error e =>
              constructor
              · intro status body _
                simp [optionalAuth, h0, hsp, hb, hv]
              · intro ctx hr
                rw [requireAuth, if_neg h0, hsp] at hr
                simp only [if_pos hb, hv] at hr
                exact absurd hr (by simp)
            | ok claims =>
              constructor
              · intro status body hr
                rw [requireAuth, if_neg h0, hsp] at hr
                simp only [if_pos hb, hv] at hr
                exact absurd hr (by simp)
              · intro ctx hr
                rw [requireAuth, if_neg h0, hsp] at hr
                simp only [if_pos hb, hv] at hr
                rw [optionalAuth, if_neg h0, hsp]
                simp only [if_pos hb, hv]
                exact (AuthOutcome.proceed.inj hr)
          · constructor
            · intro status body _
              simp [optionalAuth, h0, hsp, hb]
            · intro ctx hr
              rw [requireAuth, if_neg h0, hsp] at hr
              simp only [if_neg hb] at hr
              exact absurd hr (by simp)
        | cons p2 rest3 =>
          constructor
          · intro status body _
            simp [optionalAuth, h0, hsp]
          · intro ctx hr
            rw [requireAuth, if_neg h0, hsp] at hr
            exact absurd hr (by simp)

/-- Witness for C4 at a header carrying an expired token: the required path
    rejects it and the optional path yields the empty context. -/
theorem C4_required_optional_agree_witness :
    requireAuth "secret!" 2000
        (bearerHeader (signToken .HS256 (strBytes "secret!")
          ⟨"u4", "e", "authenticated", some 1000, some 0⟩))
      = .rejected 401
          "invalid token: failed to parse token: token has invalid claims: token is expired"
    ∧ optionalAuth "secret!" 2000
        (bearerHeader (signToken .HS256 (strBytes "secret!")
          ⟨"u4", "e", "authenticated", some 1000, some 0⟩))
      = emptyContext :=
  ⟨by decide,
    (C4_required_optional_agree "secret!" 2000
      (bearerHeader (signToken .HS256 (strBytes "secret!")
        ⟨"u4", "e", "authenticated", some 1000, some 0⟩))).1 401
      "invalid token: failed to parse token: token has invalid claims: token is expired"
      (by decide)⟩

def c5Secret : String := "secret!"

def c5ExpiredToken : String :=
  signToken .HS256 (strBytes c5Secret) ⟨"u1", "e", "authenticated", some 10, some 0⟩

def c5BadSigToken : String :=
  signToken .HS256 (strBytes "otherkey!") ⟨"u2", "e", "authenticated", some 1000, some 0⟩

/-- C5 counterexample: two requests whose tokens fail validation for
    different reasons (expired vs. bad signature) receive 401 responses
    with different bodies: `RequireAuth` interpolates the validation error
    into the response, so the body is not a stable generic message. -/
theorem C5_counterexample :
    requireAuth c5Secret 100 (bearerHeader c5ExpiredToken)
      = .rejected 401
          "invalid token: failed to parse token: token has invalid claims: token is expired"
    ∧ requireAuth c5Secret 100 (bearerHeader c5BadSigToken)
      = .rejected 401 "invalid token: failed to parse token: token signature is invalid"
    ∧ ("invalid token: failed to parse token: token has invalid claims: token is expired"
        ≠ "invalid token: failed to parse token: token signature is invalid") := by
  refine ⟨by decide, by decide, by decide⟩

/-- C5 (amended): every rejection by `RequireAuth` carries status 401, and
    a token-validation failure is answered with the body
    `invalid token: ` followed by the validator's error message — so the
    status is uniform across failure reasons but the body exposes which
    part of validation failed. -/
theorem C5_amended (jwtSecret : String) (now : Int) (authHeader : String) :
    (∀ status body, requireAuth jwtSecret now authHeader = .rejected status body →
      status = 401)
    ∧ (∀ t e, authHeader ≠ "" → splitOnChar ' ' authHeader = ["Bearer", t] →
      validateToken jwtSecret now t = .error e →
      requireAuth jwtSecret now authHeader = .rejected 401 ("invalid token: " ++ e)) := by
  constructor
  · intro status body hr
    unfold requireAuth at hr
    by_cases h0 : authHeader = ""
    · rw [if_pos h0] at hr
      exact (AuthOutcome.rejected.inj hr).1.symm
    · rw [if_neg h0] at hr
      cases hsp : splitOnChar ' ' authHeader with
      | nil =>
        rw [hsp] at hr
        exact (AuthOutcome.rejected.inj hr).1.symm
      | cons p0 rest =>
        cases rest with
        | nil =>
          rw [hsp] at hr
          exact (AuthOutcome.rejected.inj hr).1.symm
        | cons p1 rest2 =>
          cases rest2 with
          | nil =>
            rw [hsp] at hr
            by_cases hb : p0 = "Bearer"
            · simp only [if_pos hb] at hr
              cases hv : validateToken jwtSecret now p1 with
              | error e =>
                rw [hv] at hr
                exact (AuthOutcome.rejected.inj hr).1.symm
              | ok claims =>
                rw [hv] at hr
                exact absurd hr (by simp)
            · simp only [if_neg hb] at hr
              exact (AuthOutcome.rejected.inj hr).1.symm
          | cons p2 rest3 =>
            rw [hsp] at hr
            exact (AuthOutcome.rejected.inj hr).1.symm
  · intro t e h0 hsp hv
    rw [requireAuth, if_neg h0, hsp]
    simp [hv]

/-- Witness for C5 (amended) at the expired-token request. -/
theorem C5_amended_witness :
    (bearerHeader c5ExpiredToken ≠ "")
    ∧ splitOnChar ' ' (bearerHeader c5ExpiredToken) = ["Bearer", c5ExpiredToken]
    ∧ validateToken c5Secret 100 c5ExpiredToken
      = .error "failed to parse token: token has invalid claims: token is expired"
    ∧ requireAuth c5Secret 100 (bearerHeader c5ExpiredToken)
      = .rejected 401
          ("invalid token: " ++ "failed to parse token: token has invalid claims: token is expired") :=
  ⟨by decide, by decide, by decide,
    (C5_amended c5Secret 100 (bearerHeader c5ExpiredToken)).2 c5ExpiredToken
      "failed to parse token: token has invalid claims: token is expired"
      (by decide) (by decide) (by decide)⟩

/-- C10: on any request admitted by `RequireAuth`, the identity context the
    handler sees is fully populated: `GetUserID` returns the validated
    token's subject and `GetUserToken` returns the raw token string, both
    without error, so `MustGetUserID` cannot hit its panic branch. -/
theorem C10_context_populated (jwtSecret : String) (now : Int) (authHeader : String)
    (ctx : AuthContext) (h : requireAuth jwtSecret now authHeader = .proceed ctx) :
    ∃ t claims, splitOnChar ' ' authHeader = ["Bearer", t]
      ∧ validateToken jwtSecret now t = .ok claims
      ∧ getUserID ctx = .ok claims.sub
      ∧ getUserToken ctx = .ok t
      ∧ mustGetUserID ctx = some claims.sub := by
  unfold requireAuth at h
  by_cases h0 : authHeader = ""
  · rw [if_pos h0] at h
    exact absurd h (by simp)
  · rw [if_neg h0] at h
    cases hsp : splitOnChar ' ' authHeader with
    | nil => rw [hsp] at h; exact absurd h (by simp)
    | cons p0 rest =>
      cases rest with
      | nil => rw [hsp] at h; exact absurd h (by simp)
      | cons p1 rest2 =>
        cases rest2 with
        | nil =>
          rw [hsp] at h
          by_cases hb : p0 = "Bearer"
          · simp only [if_pos hb] at h
            cases hv : validateToken jwtSecret now p1 with
            | error e =>
              rw [hv] at h
              exact absurd h (by simp)
            | ok claims =>
              rw [hv] at h
              have hc := AuthOutcome.proceed.inj h
              subst hb
              refine ⟨p1, claims, rfl, hv, ?_, ?_, ?_⟩ <;>
                simp [← hc, getUserID, getUserToken, mustGetUserID]
          · simp only [if_neg hb] at h
            exact absurd h (by simp)
        | cons p2 rest3 =>
          rw [hsp] at h
          exact absurd h (by simp)

def c10Token : String :=
  signToken .HS256 (strBytes "secret!") ⟨"u1", "u1@x", "authenticated", some 1000, some 0⟩

/-- A step for some other client leaves this client's entry untouched. -/
theorem rateLimitStep_frame (m w t : Nat) (ip a : String) (st : LimiterState)
    (h : ip ≠ a) : (rateLimitStep m w t ip st).2 a = st a := by
  have hne : a ≠ ip := Ne.symm h
  cases hst : st ip with
  | none => simp [rateLimitStep, hst, setClient, if_neg hne]
  | some info =>
    simp only [rateLimitStep, hst]
    split
    · simp [setClient, if_neg hne]
    · split
      · rfl
      · simp [setClient, if_neg hne]

/-- A step for a client depends only on that client's own entry. -/
theorem rateLimitStep_congr (m w t : Nat) (a : String) (st st2 : LimiterState)
    (h : st a = st2 a) :
    (rateLimitStep m w t a st).1 = (rateLimitStep m w t a st2).1
    ∧ (rateLimitStep m w t a st).2 a = (rateLimitStep m w t a st2).2 a := by
  cases hst : st2 a with
  | none =>
    have hst1 : st a = none := h.trans hst
    simp [rateLimitStep, hst, hst1, setClient]
  | some info =>
    have hst1 : st a = some info := h.trans hst
    simp only [rateLimitStep, hst, hst1]
    split
    · simp [setClient]
    · split
      · exact ⟨rfl, h⟩
      · simp [setClient]

/-- A whole single-client run depends only on that client's own entry. -/
theorem rateLimitRun_congr (m w : Nat) (a : String) (ts : List Nat) :
    ∀ (st st2 : LimiterState), st a = st2 a →
    (rateLimitRun m w a ts st).1 = (rateLimitRun m w a ts st2).1
    ∧ (rateLimitRun m w a ts st).2 a = (rateLimitRun m w a ts st2).2 a := by
  induction ts with
  | nil => intro st st2 h; exact ⟨rfl, h⟩
  | cons t rest ih =>
    intro st st2 h
    have hs := rateLimitStep_congr m w t a st st2 h
    have hr := ih (rateLimitStep m w t a st).2 (rateLimitStep m w t a st2).2 hs.2
    simp only [rateLimitRun]
    exact ⟨by rw [hs.1, hr.1], hr.2⟩

/-- C2: the rate limiter implements fixed-window admission per client: a
    first request creates an entry with count 1 and window start now and is
    admitted; an elapsed window (now − windowStart > windowDuration) resets
    to count 1 with a fresh start and admits; within the window below the
    limit the count increments and the request is admitted; at the limit
    the request is rejected with retryAfter = windowDuration − (now −
    windowStart).  Consequently a single client issuing limit+k requests
    (k>0) inside one window gets exactly limit admissions and k rejections,
    each rejection carrying a positive retryAfter. -/
theorem C2_fixed_window (maxRequests window : Nat) :
    (∀ (now : Nat) (ip : String) (st : LimiterState), st ip = none →
      rateLimitStep maxRequests window now ip st
        = (.admitted, setClient st ip ⟨1, now⟩))
    ∧ (∀ (now : Nat) (ip : String) (st : LimiterState) (info : clientInfo),
      st ip = some info → now - info.lastReset > window →
      rateLimitStep maxRequests window now ip st
        = (.admitted, setClient st ip ⟨1, now⟩))
    ∧ (∀ (now : Nat) (ip : String) (st : LimiterState) (info : clientInfo),
      st ip = some info → ¬ now - info.lastReset > window →
      info.count < maxRequests →
      rateLimitStep maxRequests window now ip st
        = (.admitted, setClient st ip ⟨info.count + 1, info.lastReset⟩))
    ∧ (∀ (now : Nat) (ip : String) (st : LimiterState) (info : clientInfo),
      st ip = some info → ¬ now - info.lastReset > window →
      info.count ≥ maxRequests →
      rateLimitStep maxRequests window now ip st
        = (.rejected (window - (now - info.lastReset)), st))
    ∧ (∀ (k : Nat) (ip : String) (t0 : Nat) (rest : List Nat) (st : LimiterState),
      st ip = none → 1 ≤ maxRequests → 1 ≤ k →
      rest.length = maxRequests - 1 + k →
      (∀ t ∈ rest, t0 ≤ t ∧ t - t0 < window) →
      countAdmitted (rateLimitRun maxRequests window ip (t0 :: rest) st).1
          = maxRequests
      ∧ countRejected (rateLimitRun maxRequests window ip (t0 :: rest) st).1 = k
      ∧ ∀ ra, Decision.rejected ra
          ∈ (rateLimitRun maxRequests window ip (t0 :: rest) st).1 → 0 < ra) := by
  refine ⟨?_, ?_, ?_, ?_, ?_⟩
  · intro now ip st h
    simp only [rateLimitStep, h]
  · intro now ip st info h helapsed
    simp only [rateLimitStep, h]
    rw [if_pos helapsed]
  · intro now ip st info h helapsed hcount
    simp only [rateLimitStep, h]
    rw [if_neg helapsed, if_neg (by omega : ¬ info.count ≥ maxRequests)]
  · intro now ip st info h helapsed hcount
    simp only [rateLimitStep, h]
    rw [if_neg helapsed, if_pos hcount]
  · intro k ip t0 rest st hnone hmax hk hlen hts
    have hstep : rateLimitStep maxRequests window t0 ip st
        = (.admitted, setClient st ip ⟨1, t0⟩) := by
      simp only [rateLimitStep, hnone]
    have hst2 : setClient st ip ⟨1, t0⟩ ip = some ⟨1, t0⟩ := by
      simp [setClient]
    have hr := rateLimitRun_within_window maxRequests window ip t0 rest
      (setClient st ip ⟨1, t0⟩) 1 hst2 le_rfl hmax hts
    simp only [rateLimitRun, hstep]
    refine ⟨?_, ?_, ?_⟩
    · rw [countAdmitted_cons_admitted, hr.1]
      omega
    · rw [countRejected_cons_admitted, hr.2.1]
      omega
    · intro ra hra
      rcases List.mem_cons.mp hra with heq | hmem
      · exact absurd heq (by simp)
      · exact hr.2.2.1 ra hmem

/-- Witness for C2: limit 2, window 10, three requests at ticks 5, 6, 7
    from one client — two admissions, one rejection with retryAfter 8. -/
theorem C2_fixed_window_witness :
    emptyLimiter "1.2.3.4" = none
    ∧ (1 ≤ 2 ∧ (1 : Nat) ≤ 1 ∧ List.length [6, 7] = 2 - 1 + 1
      ∧ ∀ t ∈ [6, 7], 5 ≤ t ∧ t - 5 < 10)
    ∧ countAdmitted (rateLimitRun 2 10 "1.2.3.4" [5, 6, 7] emptyLimiter).1 = 2
    ∧ countRejected (rateLimitRun 2 10 "1.2.3.4" [5, 6, 7] emptyLimiter).1 = 1
    ∧ ∀ ra, Decision.rejected ra ∈ (rateLimitRun 2 10 "1.2.3.4" [5, 6, 7] emptyLimiter).1
        → 0 < ra := by
  have h := (C2_fixed_window 2 10).2.2.2.2 1 "1.2.3.4" 5 [6, 7] emptyLimiter rfl
    (by decide) (by decide) (by decide) (by decide)
  exact ⟨rfl, ⟨by decide, by decide, by decide, by decide⟩, h.1, h.2.1, h.2.2⟩

def c7Claims : UserClaims := ⟨"u1", "e", "authenticated", some 100, some 0⟩

def c7Token : String := signToken .HS256 (strBytes "abcd") c7Claims

/-- C7 counterexample: with raw secret `abcd` — which is itself decodable
    standard base64 — validation does not behave identically between the
    raw secret and its base64 encoding `YWJjZA==`: the raw form is decoded
    as base64 to different key bytes, so a token signed with the bytes of
    `abcd` is rejected under secret `abcd` but accepted under `YWJjZA==`. -/
theorem C7_counterexample :
    base64Encode (strBytes "abcd") = "YWJjZA=="
    ∧ validateToken "abcd" 50 c7Token
      = .error "failed to parse token: token signature is invalid"
    ∧ validateToken "YWJjZA==" 50 c7Token = .ok c7Claims
    ∧ validateToken "abcd" 50 c7Token
      ≠ validateToken (base64Encode (strBytes "abcd")) 50 c7Token := by
  refine ⟨by decide, by decide, by decide, by decide⟩

/-- C7 (amended): `ValidateToken` attempts base64 decoding of the secret
    first and falls back to the raw bytes exactly when decoding fails; and
    whenever the raw secret is not itself decodable as base64, validation
    of every token is identical under the raw secret and under its base64
    encoding.  (When the raw secret is itself valid base64 the two
    configurations use different key material; see the counterexample.) -/
theorem C7_secret_encoding (jwtSecret : String) :
    (∀ bs, base64Decode jwtSecret = some bs → effectiveSecretKey jwtSecret = bs)
    ∧ (base64Decode jwtSecret = none →
      effectiveSecretKey jwtSecret = strBytes jwtSecret)
    ∧ (base64Decode jwtSecret = none → ∀ (now : Int) (tokenString : String),
      validateToken jwtSecret now tokenString
        = validateToken (base64Encode (strBytes jwtSecret)) now tokenString) := by
  refine ⟨?_, ?_, ?_⟩
  · intro bs h
    unfold effectiveSecretKey
    rw [h]
  · intro h
    unfold effectiveSecretKey
    rw [h]
  · intro hnone now tokenString
    have hk : jwtSecret ≠ "" := by
      intro h
      rw [h] at hnone
      exact absurd hnone (by decide)
    have hround : base64Decode (base64Encode (strBytes jwtSecret))
        = some (strBytes jwtSecret) :=
      base64Decode_encode (strBytes jwtSecret) (strBytes_lt jwtSecret)
    have hencne : base64Encode (strBytes jwtSecret) ≠ "" := by
      intro h
      have hd := congrArg String.data h
      have hnil : base64EncodeBytes (strBytes jwtSecret) = [] := hd
      rw [base64EncodeBytes_eq_nil_iff] at hnil
      exact hk ((strBytes_eq_nil_iff jwtSecret).mp hnil)
    have hkey : effectiveSecretKey jwtSecret
        = effectiveSecretKey (base64Encode (strBytes jwtSecret)) := by
      unfold effectiveSecretKey
      rw [hnone, hround]
    rw [validateToken, validateToken, if_neg hk, if_neg hencne, hkey]

/-- Witness for C7 (amended) at the secret `secret!`, which is not valid
    base64. -/
theorem C7_secret_encoding_witness :
    base64Decode "secret!" = none
    ∧ validateToken "secret!" 5 "x"
      = validateToken (base64Encode (strBytes "secret!")) 5 "x" :=
  ⟨by decide, (C7_secret_encoding "secret!").2.2 (by decide) 5 "x"⟩

def c9Request : GatewayRequest := ⟨"OPTIONS", "/api/v1/songs", "Bearer junk", "1.2.3.4", 0⟩

/-- C9: an OPTIONS request is answered by the CORS middleware — which runs
    before Logger, RateLimit and auth — with status 204 and an aborted
    pipeline: nothing is logged, the rate-limit map is untouched, no
    handler runs, and the outcome is independent of the configured secret
    and of the Authorization header (so no token is ever validated). -/
theorem C9_options_preflight (jwtSecret : String) (maxRequests window : Nat)
    (route : RouteAuth) (req : GatewayRequest) (st : LimiterState)
    (h : req.method = "OPTIONS") :
    processRequest jwtSecret maxRequests window route req st
      = { status := 204, logLine := none, handlerRan := false, ctx := emptyContext,
          limiter := st }
    ∧ ∀ (jwtSecret2 header2 : String),
      processRequest jwtSecret2 maxRequests window route
          { req with authHeader := header2 } st
        = processRequest jwtSecret maxRequests window route req st := by
  constructor
  · rw [processRequest, if_pos h]
  · intro jwtSecret2 header2
    have h2 : ({ req with authHeader := header2 } : GatewayRequest).method
        = "OPTIONS" := h
    rw [processRequest, if_pos h2, processRequest, if_pos h]

/-- Witness for C9 at a concrete OPTIONS request. -/
theorem C9_options_preflight_witness :
    c9Request.method = "OPTIONS"
    ∧ processRequest "secret!" 100 60 .required c9Request emptyLimiter
      = { status := 204, logLine := none, handlerRan := false, ctx := emptyContext,
          limiter := emptyLimiter }
    ∧ ∀ (jwtSecret2 header2 : String),
      processRequest jwtSecret2 100 60 .required
          { c9Request with authHeader := header2 } emptyLimiter
        = processRequest "secret!" 100 60 .required c9Request emptyLimiter :=
  ⟨rfl,
    (C9_options_preflight "secret!" 100 60 .required c9Request emptyLimiter rfl).1,
    (C9_options_preflight "secret!" 100 60 .required c9Request emptyLimiter rfl).2⟩

/-- C6 (code behavior at the claimed property): the Logger middleware reads
    `GetUserID` from the context before `c.Next()` runs the rate limiter,
    the auth middleware and the handler, so every emitted log line has an
    empty user field — the subject of an authenticated caller is never
    included, contrary to the claim and to the Logger's own doc comment. -/
theorem C6_logger_misses_subject (jwtSecret : String) (maxRequests window : Nat)
    (route : RouteAuth) (req : GatewayRequest) (st : LimiterState) (rec : LogRecord)
    (h : (processRequest jwtSecret maxRequests window route req st).logLine
      = some rec) :
    rec.user = "" := by
  unfold processRequest at h
  by_cases hm : req.method = "OPTIONS"
  · rw [if_pos hm] at h
    exact absurd h (by simp)
  · rw [if_neg hm] at h
    cases hd : rateLimitStep maxRequests window req.time req.clientIP st with
    | mk d st2 =>
      rw [hd] at h
      cases d with
      | rejected ra =>
        cases Option.some.inj h
        rfl
      | admitted =>
        cases route with
        | publicRoute =>
          cases Option.some.inj h
          rfl
        | optional =>
          cases Option.some.inj h
          rfl
        | required =>
          cases hr : requireAuth jwtSecret req.time req.authHeader with
          | rejected s b =>
            rw [hr] at h
            cases Option.some.inj h
            rfl
          | proceed ctx =>
            rw [hr] at h
            cases Option.some.inj h
            rfl

def c6Token : String :=
  signToken .HS256 (strBytes "secret!") ⟨"u1", "u1@x", "authenticated", some 1000, some 0⟩

def c6Request : GatewayRequest :=
  ⟨"GET", "/api/v1/auth/me", bearerHeader c6Token, "1.2.3.4", 500⟩

/-- Witness for C6: a request with a valid token on a RequireAuth route is
    admitted (the handler sees subject `u1`), yet the emitted log line's
    user field is empty. -/
theorem C6_logger_misses_subject_witness :
    (processRequest "secret!" 100 60 .required c6Request emptyLimiter).logLine
      = some ⟨"GET", "/api/v1/auth/me", 200, ""⟩
    ∧ (processRequest "secret!" 100 60 .required c6Request emptyLimiter).ctx.user_id
      = some "u1"
    ∧ ∀ rec,
      (processRequest "secret!" 100 60 .required c6Request emptyLimiter).logLine
        = some rec → rec.user = "" :=
  ⟨by decide, by decide,
    fun rec h =>
      C6_logger_misses_subject "secret!" 100 60 .required c6Request emptyLimiter rec h⟩

theorem decisionsFor_cons_self (a : String) (d : Decision)
    (rest : List (String × Decision)) :
    decisionsFor a ((a, d) :: rest) = d :: decisionsFor a rest := by
  simp [decisionsFor]

theorem decisionsFor_cons_other {ip a : String} (h : ip ≠ a) (d : Decision)
    (rest : List (String × Decision)) :
    decisionsFor a ((ip, d) :: rest) = decisionsFor a rest := by
  simp [decisionsFor, h]

theorem requestTimesFor_cons_self (a : String) (t : Nat)
    (rest : List (String × Nat)) :
    requestTimesFor a ((a, t) :: rest) = t :: requestTimesFor a rest := by
  simp [requestTimesFor]

theorem requestTimesFor_cons_other {ip a : String} (h : ip ≠ a) (t : Nat)
    (rest : List (String × Nat)) :
    requestTimesFor a ((ip, t) :: rest) = requestTimesFor a rest := by
  simp [requestTimesFor, h]

/-- C8: an admission decision touches only that client's entry: over any
    interleaved request stream, a client's decisions and final entry are
    exactly those of running that client's own requests alone, so distinct
    clients never affect each other's counters. -/
theorem C8_client_isolation (maxRequests window : Nat) (reqs : List (String × Nat))
    (st : LimiterState) (a : String) :
    decisionsFor a (rateLimitRunMulti maxRequests window reqs st).1
      = (rateLimitRun maxRequests window a (requestTimesFor a reqs) st).1
    ∧ (rateLimitRunMulti maxRequests window reqs st).2 a
      = (rateLimitRun maxRequests window a (requestTimesFor a reqs) st).2 a := by
  induction reqs generalizing st with
  | nil => exact ⟨rfl, rfl⟩
  | cons p rest ih =>
    obtain ⟨ip, t⟩ := p
    by_cases hip : ip = a
    · subst hip
      rw [requestTimesFor_cons_self]
      simp only [rateLimitRunMulti, rateLimitRun]
      rw [decisionsFor_cons_self]
      have hr := ih (rateLimitStep maxRequests window t ip st).2
      exact ⟨by rw [hr.1], hr.2⟩
    · have hfr := rateLimitStep_frame maxRequests window t ip a st hip
      rw [requestTimesFor_cons_other hip]
      simp only [rateLimitRunMulti]
      rw [decisionsFor_cons_other hip]
      have hr := ih (rateLimitStep maxRequests window t ip st).2
      have hc := rateLimitRun_congr maxRequests window a (requestTimesFor a rest)
        (rateLimitStep maxRequests window t ip st).2 st hfr
      exact ⟨hr.1.trans hc.1, hr.2.trans hc.2⟩

/-- Witness for C10 at a concrete admitted request. -/
theorem C10_context_populated_witness :
    requireAuth "secret!" 500 (bearerHeader c10Token)
      = .proceed ⟨some "u1", some "u1@x", some c10Token⟩
    ∧ ∃ t claims, splitOnChar ' ' (bearerHeader c10Token) = ["Bearer", t]
      ∧ validateToken "secret!" 500 t = .ok claims
      ∧ getUserID ⟨some "u1", some "u1@x", some c10Token⟩ = .ok claims.sub
      ∧ getUserToken ⟨some "u1", some "u1@x", some c10Token⟩ = .ok t
      ∧ mustGetUserID ⟨some "u1", some "u1@x", some c10Token⟩ = some claims.sub :=
  ⟨by decide,
    C10_context_populated "secret!" 500 (bearerHeader c10Token)
      ⟨some "u1", some "u1@x", some c10Token⟩ (by decide)⟩

end LeepBackend
